import Mathlib

/-!
Verification of the rustic repository's formatting core and container types.

The `format`/`sprintf` engine lives in `src/_/printf.ts`, which is not part
of the provided sources; it is modelled here from the repository's
specification (grammar, cursor semantics, error-token policy and the
documented examples).  The container types (`Option.ts`, `Result.ts`),
`panic.ts` and `ops.ts` are embedded directly from their sources.
-/

/-- Modelled from the spec: the engine's argument values.  The spec's
examples exercise only strings and (integral) numbers, so the value domain
is restricted to those two dynamic types (`src/_/printf.ts` is missing from
the sources; everything about the engine is modelled from the spec). -/
inductive Value where
  | num (n : Int)
  | str (s : String)
deriving DecidableEq, Repr

/-- Modelled from the spec: the flag set of a directive,
`{plus, minus, hash, space, zero, spread}`. -/
structure Flags where
  plus : Bool := false
  minus : Bool := false
  sharp : Bool := false
  space : Bool := false
  zero : Bool := false
  spread : Bool := false
deriving DecidableEq, Repr

/-- Modelled from the spec: a width or precision specification, one of
`{absent, literal(n), fromArg, fromArgAt(n)}`. -/
inductive WSpec where
  | absent
  | lit (n : Nat)
  | fromArg
  | fromArgAt (n : Nat)
deriving DecidableEq, Repr

/-- Modelled from the spec: a parsed directive record
`{ verb, flags, width, precision, explicitIndex }`. -/
structure Directive where
  idx : Option Nat := none
  flags : Flags := {}
  width : WSpec := .absent
  prec : WSpec := .absent
  verb : Char
deriving DecidableEq, Repr

/-- Modelled from the spec: a scanner segment is a literal character, a
parsed directive span, or a malformed span (a `%` with no verb). -/
inductive Segment where
  | lit (c : Char)
  | dir (d : Directive)
  | noVerb
deriving DecidableEq, Repr

/-- Modelled from the spec: consume a run of decimal digits, accumulating
their value; returns the value and the unconsumed suffix. -/
def parseNat (acc : Nat) : List Char → Nat × List Char
  | [] => (acc, [])
  | c :: cs =>
    if c.isDigit then parseNat (acc * 10 + (c.toNat - 48)) cs
    else (acc, c :: cs)

theorem parseNat_len (acc : Nat) : ∀ cs : List Char, (parseNat acc cs).2.length ≤ cs.length
  | [] => Nat.le_refl _
  | c :: cs => by
    unfold parseNat
    by_cases h : c.isDigit
    · simp only [h, if_true]
      exact Nat.le_trans (parseNat_len _ cs) (Nat.le_succ _)
    · simp [h]

/-- Modelled from the spec: parse an explicit positional index `[n]`; on a
malformed index the input is left unconsumed. -/
def parseIdx (cs : List Char) : Option Nat × List Char :=
  match cs with
  | '[' :: cs' =>
    match parseNat 0 cs' with
    | (n, ']' :: rest) => (some n, rest)
    | _ => (none, '[' :: cs')
  | _ => (none, cs)

theorem parseIdx_len (cs : List Char) : (parseIdx cs).2.length ≤ cs.length := by
  unfold parseIdx
  split
  · next cs' =>
    split
    · next n rest h =>
      have := parseNat_len 0 cs'
      rw [h] at this
      simp only [List.length_cons] at this ⊢
      omega
    · simp
  · exact Nat.le_refl _

/-- Modelled from the spec: whether a character is one of the flag
characters `+ - # ' ' 0 <`. -/
def isFlagChar (c : Char) : Bool :=
  c = '+' || c = '-' || c = '#' || c = ' ' || c = '0' || c = '<'

/-- Modelled from the spec: record one flag character into the flag set. -/
def flagSet (f : Flags) (c : Char) : Flags :=
  if c = '+' then { f with plus := true }
  else if c = '-' then { f with minus := true }
  else if c = '#' then { f with sharp := true }
  else if c = ' ' then { f with space := true }
  else if c = '0' then { f with zero := true }
  else { f with spread := true }

/-- Modelled from the spec: parse the run of flag characters. -/
def parseFlags (f : Flags) : List Char → Flags × List Char
  | [] => (f, [])
  | c :: cs =>
    if isFlagChar c then parseFlags (flagSet f c) cs
    else (f, c :: cs)

theorem parseFlags_len (f : Flags) : ∀ cs : List Char, (parseFlags f cs).2.length ≤ cs.length
  | [] => Nat.le_refl _
  | c :: cs => by
    unfold parseFlags
    by_cases h : isFlagChar c
    · simp only [h, if_true]
      exact Nat.le_trans (parseFlags_len _ cs) (Nat.le_succ _)
    · simp [h]

/-- Modelled from the spec: parse a width specification
`DIGITS | '*' | '*[' INDEX ']'`. -/
def parseW (cs : List Char) : WSpec × List Char :=
  match cs with
  | '*' :: cs' =>
    match cs' with
    | '[' :: cs'' =>
      match parseNat 0 cs'' with
      | (n, ']' :: rest) => (.fromArgAt n, rest)
      | _ => (.fromArg, '[' :: cs'')
    | _ => (.fromArg, cs')
  | cs =>
    if (cs.headD ' ').isDigit then ((.lit (parseNat 0 cs).1), (parseNat 0 cs).2)
    else (.absent, cs)

theorem parseW_len (cs : List Char) : (parseW cs).2.length ≤ cs.length := by
  unfold parseW
  split
  · next cs' =>
    split
    · next cs'' =>
      split
      · next n rest h =>
        have := parseNat_len 0 cs''
        rw [h] at this
        simp only [List.length_cons] at this ⊢
        omega
      · simp only [List.length_cons]; omega
    · next h => simp
  · next h =>
    split
    · exact parseNat_len 0 cs
    · exact Nat.le_refl _

/-- Modelled from the spec: parse a precision specification: a `.` followed
by a width-shaped spec, where an empty precision means `0`. -/
def parseP (cs : List Char) : WSpec × List Char :=
  match cs with
  | '.' :: cs' =>
    (if (parseW cs').1 = .absent then .lit 0 else (parseW cs').1, (parseW cs').2)
  | _ => (.absent, cs)

theorem parseP_len (cs : List Char) : (parseP cs).2.length ≤ cs.length := by
  unfold parseP
  split
  · next cs' =>
    have := parseW_len cs'
    simp only [List.length_cons]
    omega
  · exact Nat.le_refl _

/-- Modelled from the spec: given the parsed index, flags and width, parse
the verb character off the remaining span; a span with no verb character is
a malformed-directive segment. -/
def mkDir (idx : Option Nat) (fl : Flags) (w : WSpec) (pr : WSpec × List Char) :
    Segment × List Char :=
  match pr.2 with
  | [] => (.noVerb, [])
  | v :: rest => (.dir { idx := idx, flags := fl, width := w, prec := pr.1, verb := v }, rest)

theorem mkDir_len (idx : Option Nat) (fl : Flags) (w : WSpec) (pr : WSpec × List Char) :
    (mkDir idx fl w pr).2.length ≤ pr.2.length := by
  unfold mkDir
  split
  · simp
  · next v rest h => rw [h]; simp

/-- Modelled from the spec: parse one directive span (the text following the
`%`), per the grammar INDEX? FLAGS* WIDTH? ('.' PRECISION)? VERB. -/
def parseDir (cs : List Char) : Segment × List Char :=
  mkDir (parseIdx cs).1 (parseFlags {} (parseIdx cs).2).1
    (parseW (parseFlags {} (parseIdx cs).2).2).1
    (parseP (parseW (parseFlags {} (parseIdx cs).2).2).2)

theorem parseDir_len (cs : List Char) : (parseDir cs).2.length ≤ cs.length := by
  unfold parseDir
  have h1 := parseIdx_len cs
  have h2 := parseFlags_len {} (parseIdx cs).2
  have h3 := parseW_len (parseFlags {} (parseIdx cs).2).2
  have h4 := parseP_len (parseW (parseFlags {} (parseIdx cs).2).2).2
  have h5 := mkDir_len (parseIdx cs).1 (parseFlags {} (parseIdx cs).2).1
    (parseW (parseFlags {} (parseIdx cs).2).2).1
    (parseP (parseW (parseFlags {} (parseIdx cs).2).2).2)
  omega

/-- Modelled from the spec: the scanner splits the template into literal
runs and directive spans; `%%` short-circuits as an escaped literal `%`.
Structurally recursive on a fuel bound (any fuel ≥ the template length
suffices, since each step consumes at least one character). -/
def tokenizeF : Nat → List Char → List Segment
  | 0, _ => []
  | _ + 1, [] => []
  | fuel + 1, c :: cs =>
    if c = '%' then
      match cs with
      | c2 :: cs' =>
        if c2 = '%' then .lit '%' :: tokenizeF fuel cs'
        else (parseDir cs).1 :: tokenizeF fuel (parseDir cs).2
      | [] => (parseDir []).1 :: tokenizeF fuel (parseDir []).2
    else .lit c :: tokenizeF fuel cs

/-- Modelled from the spec: the scanner, run with sufficient fuel. -/
def tokenize (cs : List Char) : List Segment := tokenizeF (cs.length + 1) cs

/-- Modelled from the spec: the in-band token for an unknown verb. -/
def badVerbTok (c : Char) : String := "%!(BAD VERB '" ++ String.mk [c] ++ "')"

/-- Modelled from the spec: the in-band token for a missing argument. -/
def missingTok (c : Char) : String := "%!(MISSING '" ++ String.mk [c] ++ "')"

/-- Modelled from the spec: the in-band token for a numeric-coercion
failure (a numeric verb applied to a non-numeric value). -/
def badNumTok (c : Char) : String := "%!(BAD NUM '" ++ String.mk [c] ++ "')"

/-- Modelled from the spec: the in-band token for a `%?` argument lacking
the display capability. -/
def noDisplayTok (c : Char) : String := "%!(NO DISPLAY '" ++ String.mk [c] ++ "')"

/-- Modelled from the spec: the verb characters present in the dispatch
table. -/
def knownVerbs : List Char :=
  ['%', 't', 'b', 'c', 'd', 'o', 'x', 'X', 'e', 'E', 'f', 'F', 'g', 'G',
   's', 'T', 'v', 'j', 'J', 'i', 'I', '?']

/-- Modelled from the spec: numeric coercion; strings are not numbers. -/
def coerceNum : Value → Option Int
  | .num n => some n
  | .str _ => none

/-- Modelled from the spec: coercion of a width/precision argument to an
integer, defaulting to 0. -/
def coerceIntD : Value → Int
  | .num n => n
  | .str _ => 0

/-- Modelled from the spec: boolean coercion for `%t` (dynamic
truthiness). -/
def truthy : Value → Bool
  | .num n => n != 0
  | .str s => s != ""

/-- Modelled from the spec: `%t` emits `true`/`false`. -/
def fmtBool (a : Value) : String := if truthy a then "true" else "false"

/-- Modelled from the spec: the sign prefix of a numeric conversion; `+`
forces an explicit sign and `' '` a space in its place. -/
def signStr (f : Flags) (neg : Bool) : String :=
  if neg then "-" else if f.plus then "+" else if f.space then " " else ""

/-- Modelled from the spec: run a numeric conversion, or emit the coercion
failure token. -/
def withNum (vb : Char) (a : Value) (k : Int → String) : String :=
  match coerceNum a with
  | some n => k n
  | none => badNumTok vb

/-- Modelled from the spec: integer conversion in base 2/8/16.  The spec's
documented example fixes `%x` on a number to carry the `0x` prefix
(`format("... %x ...", ..., 255, ...)` renders `0xff`); the `#` flag
additionally prefixes `0b` for binary and `0` for octal. -/
def fmtRadix (base : Nat) (f : Flags) (upper : Bool) (n : Int) : String :=
  let ds := Nat.toDigits base n.natAbs
  let pre :=
    if base = 16 then "0x"
    else if f.sharp then
      if base = 2 then "0b"
      else if base = 8 then (if ds.headD '0' = '0' then "" else "0")
      else ""
    else ""
  let core := pre ++ String.mk ds
  signStr f (decide (n < 0)) ++ (if upper then core.toUpper else core)

/-- Modelled from the spec: `%d`, decimal integer conversion. -/
def fmtDec (f : Flags) (n : Int) : String :=
  signStr f (decide (n < 0)) ++ String.mk (Nat.toDigits 10 n.natAbs)

/-- Modelled from the spec: `%f`, fixed notation with `precision` digits
after the decimal point, default 6.  The model's value domain holds only
integral numbers, so the fractional digits are zeros. -/
def fmtFixed (f : Flags) (p : Option Int) (n : Int) : String :=
  signStr f (decide (n < 0)) ++ String.mk (Nat.toDigits 10 n.natAbs) ++
    (if (p.getD 6).toNat = 0 then ""
     else "." ++ String.mk (List.replicate (p.getD 6).toNat '0'))

/-- Modelled from the spec: `%e`, exponential notation (on the model's
integral value domain). -/
def fmtSci (f : Flags) (p : Option Int) (upper : Bool) (n : Int) : String :=
  let ds := Nat.toDigits 10 n.natAbs
  let prec := (p.getD 6).toNat
  let frac := (ds.drop 1).take prec
  let fracz := frac ++ List.replicate (prec - frac.length) '0'
  signStr f (decide (n < 0)) ++ String.mk [ds.headD '0'] ++
    (if prec = 0 then "" else "." ++ String.mk fracz) ++
    (if upper then "E" else "e") ++ "+" ++ String.mk (Nat.toDigits 10 (ds.length - 1))

/-- Modelled from the spec: `%g`, fixed-or-exponential form; on the model's
integral value domain the trailing fractional zeros are trimmed unless the
`#` flag retains them. -/
def fmtGen (f : Flags) (p : Option Int) (n : Int) : String :=
  if f.sharp then fmtFixed f p n
  else signStr f (decide (n < 0)) ++ String.mk (Nat.toDigits 10 n.natAbs)

/-- Modelled from the spec: plain stringification of a value. -/
def valueToStr : Value → String
  | .num n => fmtDec {} n
  | .str s => s

/-- Modelled from the spec: precision truncates a string to that many
characters. -/
def truncPrec (p : Option Int) (s : String) : String :=
  match p with
  | none => s
  | some k => String.mk (s.data.take k.toNat)

/-- Modelled from the spec: two hex digits of one byte. -/
def byteHex (upper : Bool) (n : Nat) : List Char :=
  let ds := Nat.toDigits 16 n
  let ds2 := if ds.length = 1 then '0' :: ds else ds
  if upper then ds2.map Char.toUpper else ds2

/-- Modelled from the spec: `%x` on a string: hex pairs of its bytes;
precision truncates, the `' '` flag separates bytes with spaces. -/
def fmtHexStr (f : Flags) (p : Option Int) (upper : Bool) (s : String) : String :=
  let chars := match p with | some k => s.data.take k.toNat | none => s.data
  let pieces := chars.map (fun c => String.mk (byteHex upper (c.toNat % 256)))
  if f.space then String.intercalate " " pieces else String.join pieces

/-- Modelled from the spec: `%T` emits the dynamic type tag. -/
def typeTag : Value → String
  | .num _ => "number"
  | .str _ => "string"

/-- Modelled from the spec: the structural/inspection dump used by `%#v`
and `%j/%J/%i/%I` (strings quoted, numbers plain). -/
def inspectStr : Value → String
  | .num n => fmtDec {} n
  | .str s => "\"" ++ s ++ "\""

/-- Modelled from the spec: the verb formatter table: one conversion per
verb, from the resolved argument, the flag set and the precision.  Called
only for known verbs other than `%`; the final case is `%?`, whose
argument (a plain value) lacks the display capability. -/
def convert (vb : Char) (fl : Flags) (p : Option Int) (a : Value) : String :=
  if vb = 't' then fmtBool a
  else if vb = 'b' then withNum vb a (fmtRadix 2 fl false)
  else if vb = 'c' then withNum vb a (fun n => String.mk [Char.ofNat n.natAbs])
  else if vb = 'd' then withNum vb a (fmtDec fl)
  else if vb = 'o' then withNum vb a (fmtRadix 8 fl false)
  else if vb = 'x' then
    (match a with
     | .num n => fmtRadix 16 fl false n
     | .str s => fmtHexStr fl p false s)
  else if vb = 'X' then
    (match a with
     | .num n => fmtRadix 16 fl true n
     | .str s => fmtHexStr fl p true s)
  else if vb = 'e' then withNum vb a (fmtSci fl p false)
  else if vb = 'E' then withNum vb a (fmtSci fl p true)
  else if vb = 'f' ∨ vb = 'F' then withNum vb a (fmtFixed fl p)
  else if vb = 'g' ∨ vb = 'G' then withNum vb a (fmtGen fl p)
  else if vb = 's' then truncPrec p (valueToStr a)
  else if vb = 'T' then truncPrec p (typeTag a)
  else if vb = 'v' then (if fl.sharp then inspectStr a else truncPrec p (valueToStr a))
  else if vb = 'j' ∨ vb = 'J' ∨ vb = 'i' ∨ vb = 'I' then inspectStr a
  else noDisplayTok vb

/-- Modelled from the spec: the padder applies width: spaces by default,
zeros under the `0` flag (unless `-` left-justifies), and the sign is kept
in front of zero padding. -/
def padStr (f : Flags) (w : Option Int) (s : String) : String :=
  match w with
  | none => s
  | some width =>
    if s.length ≥ width.toNat then s
    else if f.minus then s ++ String.mk (List.replicate (width.toNat - s.length) ' ')
    else if f.zero then
      match s.data with
      | c :: rest =>
        if c = '-' ∨ c = '+' ∨ c = ' ' then
          String.mk [c] ++ String.mk (List.replicate (width.toNat - s.length) '0') ++
            String.mk rest
        else String.mk (List.replicate (width.toNat - s.length) '0') ++ s
      | [] => String.mk (List.replicate width.toNat '0')
    else String.mk (List.replicate (width.toNat - s.length) ' ') ++ s

/-- Modelled from the spec: resolve a width/precision specification against
the argument list and the cursor; a `*`-form consumes the argument at the
cursor and advances it, a `*[n]`-form reads the argument at absolute index
`n` without advancing. -/
def resolveWP (w : WSpec) (args : List Value) (cur : Nat) : Option Int × Nat :=
  match w with
  | .absent => (none, cur)
  | .lit k => (some (Int.ofNat k), cur)
  | .fromArg =>
    match args.get? cur with
    | some v => (some (coerceIntD v), cur + 1)
    | none => (none, cur + 1)
  | .fromArgAt k =>
    match args.get? (k - 1) with
    | some v => (some (coerceIntD v), cur)
    | none => (none, cur)

/-- Modelled from the spec: the argument index a directive starts from: an
explicit 1-based index `[n]` resets the cursor to `n - 1`, otherwise the
sequential cursor is used. -/
def startIdx (d : Directive) (cur : Nat) : Nat :=
  match d.idx with
  | some i => i - 1
  | none => cur

/-- Modelled from the spec: the argument index a directive's verb consumes,
after the explicit index reset and the width/precision `*`-forms have been
applied to the cursor. -/
def argIndexOf (d : Directive) (args : List Value) (cur : Nat) : Nat :=
  (resolveWP d.prec args (resolveWP d.width args (startIdx d cur)).2).2

/-- Modelled from the spec: resolve one directive (parser output → cursor →
verb formatter → padder), returning the rendered text and the new cursor.
Unresolvable directives render as in-band error tokens; a verb absent from
the dispatch table is a parse failure reported before the argument lookup. -/
def resolveDir (d : Directive) (args : List Value) (cur : Nat) : String × Nat :=
  if d.verb = '%' then ("%", (resolveWP d.prec args (resolveWP d.width args (startIdx d cur)).2).2)
  else if knownVerbs.contains d.verb = false then
    (badVerbTok d.verb, argIndexOf d args cur + 1)
  else
    match args.get? (argIndexOf d args cur) with
    | none => (missingTok d.verb, argIndexOf d args cur + 1)
    | some a =>
      (padStr d.flags (resolveWP d.width args (startIdx d cur)).1
        (convert d.verb d.flags
          (resolveWP d.prec args (resolveWP d.width args (startIdx d cur)).2).1 a),
       argIndexOf d args cur + 1)

/-- Modelled from the spec: the assembler walks the scanner output in
order, concatenating literal runs and resolved directive outputs, threading
the argument cursor. -/
def emit : List Segment → List Value → Nat → String
  | [], _, _ => ""
  | .lit c :: ss, args, cur => String.mk [c] ++ emit ss args cur
  | .noVerb :: ss, args, cur => "%!(NOVERB)" ++ emit ss args cur
  | .dir d :: ss, args, cur =>
    (resolveDir d args cur).1 ++ emit ss args (resolveDir d args cur).2

/-- Modelled from the spec: `format(template, args)`: scan, parse, resolve
and assemble; a total function (template-level errors are rendered as
in-band tokens, never raised). -/
def format (t : String) (args : List Value) : String :=
  emit (tokenize t.data) args 0

/-- The spec's Cursor object: the per-render sequential-argument state,
allocated fresh for each call and discarded afterwards. -/
structure Cursor where
  nextImplicitIndex : Nat
deriving DecidableEq, Repr

/-- Rendering with an explicitly threaded cursor state. -/
def render (t : String) (args : List Value) (st : Cursor) : String :=
  emit (tokenize t.data) args st.nextImplicitIndex

/-- One call of `format` as the engine performs it: whatever cursor state
is left over from earlier activity, the call allocates a fresh cursor and
discards it afterwards. -/
def callFormat (_leftover : Cursor) (t : String) (args : List Value) : String :=
  render t args { nextImplicitIndex := 0 }

/-- The fallible-result container of `src/Result.ts`: a tagged union of a
success value and an error (the class's `#isError` discriminant with the
`#value`/`#error` payloads). -/
inductive RResult (T E : Type) where
  | ok (v : T)
  | err (e : E)
deriving DecidableEq, Repr

/-- The optional-value container of `src/Option.ts` (the class's `#has`
discriminant with the `#value` payload). -/
inductive ROption (T : Type) where
  | none
  | some (v : T)
deriving DecidableEq, Repr

/-- A raised (thrown) value: the abort channel of `src/panic.ts`. -/
inductive Raised where
  | val (v : Value)
deriving DecidableEq, Repr

/-- `src/panic.ts`: `panic(value, ...args)` throws the string obtained by
formatting `value` with the remaining arguments when `value` is a string,
and throws `value` itself unchanged otherwise; its codomain is the raised
value only — there is no normal-return channel. -/
def Rustic.panic (value : Value) (args : List Value) : Raised :=
  match value with
  | .str s => .val (.str (format s args))
  | v => .val v

/-- `src/Option.ts` `expect`: panics with the message when absent. -/
def ROption.expect {T : Type} (o : ROption T) (message : String) : Except Raised T :=
  match o with
  | .none => .error (Rustic.panic (.str message) [])
  | .some v => .ok v

/-- `src/Option.ts` `unwrap`. -/
def ROption.unwrap {T : Type} (o : ROption T) : Except Raised T :=
  o.expect "Option does not contain a value!"

/-- `src/Option.ts` `unwrapOr`. -/
def ROption.unwrapOr {T : Type} (o : ROption T) (value : T) : T :=
  match o with
  | .some v => v
  | .none => value

/-- `src/Option.ts` `unwrapOrElse`. -/
def ROption.unwrapOrElse {T : Type} (o : ROption T) (cb : Unit → T) : T :=
  match o with
  | .some v => v
  | .none => cb ()

/-- `src/Option.ts` `map`: the callback's result is inspected with
`instanceof Option`; an Option result is returned as-is (auto-flattening),
any other result is wrapped in `Some`.  The dynamic `instanceof` test is
embedded as a sum type on the callback's codomain. -/
def ROption.map {T U : Type} (o : ROption T) (cb : T → ROption U ⊕ U) : ROption U :=
  match o with
  | .some v =>
    match cb v with
    | .inl o2 => o2
    | .inr u => .some u
  | .none => .none

/-- `src/Option.ts` `map`, additionally counting how many times the
callback is invoked. -/
def ROption.mapCalls {T U : Type} (o : ROption T) (cb : T → ROption U ⊕ U) :
    ROption U × Nat :=
  match o with
  | .some v =>
    (match cb v with
     | .inl o2 => o2
     | .inr u => .some u, 1)
  | .none => (.none, 0)

/-- `src/Result.ts` `expect`: panics with the given message when the result
is an error. -/
def RResult.expect {T E : Type} (r : RResult T E) (message : String) : Except Raised T :=
  match r with
  | .err _ => .error (Rustic.panic (.str message) [])
  | .ok v => .ok v

/-- `src/Result.ts` `unwrap`: `this.expect(this.#error as unknown as
string)` — the stored error value is handed to panic, which throws it
unchanged unless it is a string (a string error is formatted as a panic
message). -/
def RResult.unwrap {T : Type} (r : RResult T Value) : Except Raised T :=
  match r with
  | .err e => .error (Rustic.panic e [])
  | .ok v => .ok v

/-- `src/Result.ts` `unwrapOr`. -/
def RResult.unwrapOr {T E : Type} (r : RResult T E) (value : T) : T :=
  match r with
  | .ok v => v
  | .err _ => value

/-- `src/Result.ts` `unwrapOrElse`. -/
def RResult.unwrapOrElse {T E : Type} (r : RResult T E) (cb : E → T) : T :=
  match r with
  | .ok v => v
  | .err e => cb e

/-- `src/Result.ts` `andThen` tests `!this.isErr`, where `this.isErr` is
the method object itself, not a call of it; a function object is always
truthy, so the test is constantly false. -/
def isErrRefTruthy : Bool := true

/-- `src/Result.ts` `andThen`, embedded as written: the callback branch is
guarded by the (constantly false) `!this.isErr` test. -/
def RResult.andThen {T E : Type} (r : RResult T E) (cb : T → RResult T E) : RResult T E :=
  if isErrRefTruthy = false then
    match r with
    | .ok v => cb v
    | .err _ => r
  else r

/-- `src/ops.ts`: the byte-sink boundary (`Deno.WriterSync`): one
synchronous write of a byte sequence that either succeeds or raises an
error. -/
structure WriterSync (E : Type) where
  writeSync : List Nat → Except E Unit

/-- `src/ops.ts`: the `TextEncoder` UTF-8 encoding of the rendered
string. -/
def encodeUtf8 (s : String) : List Nat :=
  s.toUTF8.toList.map (fun b => b.toNat)

/-- `src/ops.ts` `write`: encodes `format(...)` and performs one write to
the sink inside a try/catch; a raise from the sink is captured as `Err`, a
successful write returns `Ok()`; `write` itself only ever returns a
`Result` value — it has no raise channel. -/
def write {E : Type} (stream : WriterSync E) (formatter : String) (args : List Value) :
    RResult Unit E :=
  match stream.writeSync (encodeUtf8 (format formatter args)) with
  | .ok _ => .ok ()
  | .error e => .err e

/-- A template is literal-only when every `%` in it is part of a `%%`
escape. -/
def literalOnly : List Char → Bool
  | [] => true
  | [c] => decide (c ≠ '%')
  | c1 :: c2 :: cs =>
    if c1 = '%' then
      if c2 = '%' then literalOnly cs else false
    else literalOnly (c2 :: cs)

/-- Collapse every `%%` escape of a literal-only template to a single `%`,
leaving every other character unchanged. -/
def collapse : List Char → List Char
  | [] => []
  | [c] => [c]
  | c1 :: c2 :: cs =>
    if c1 = '%' then
      if c2 = '%' then '%' :: collapse cs else c1 :: collapse (c2 :: cs)
    else c1 :: collapse (c2 :: cs)

theorem tokenizeF_nil (fuel : Nat) : tokenizeF fuel [] = [] := by
  cases fuel <;> rfl

/-- On a literal-only template the scanner produces only literal segments:
the collapsed character list. -/
theorem tokenizeF_literal (fuel : Nat) : ∀ cs : List Char, cs.length ≤ fuel →
    literalOnly cs = true → tokenizeF fuel cs = (collapse cs).map Segment.lit := by
  induction fuel with
  | zero =>
    intro cs hl _
    have : cs = [] := List.length_eq_zero.mp (Nat.le_zero.mp hl)
    subst this
    rfl
  | succ fuel ih =>
    intro cs hl ho
    match cs with
    | [] => rfl
    | [c] =>
      have hc : ¬c = '%' := by simpa [literalOnly] using ho
      simp [tokenizeF, collapse, hc, tokenizeF_nil]
    | c1 :: c2 :: cs' =>
      by_cases h1 : c1 = '%'
      · subst h1
        by_cases h2 : c2 = '%'
        · subst h2
          have ho' : literalOnly cs' = true := by simpa [literalOnly] using ho
          have hl' : cs'.length ≤ fuel := by
            simp only [List.length_cons] at hl
            omega
          simp [tokenizeF, collapse, ih cs' hl' ho']
        · exfalso
          simp [literalOnly, h2] at ho
      · have ho' : literalOnly (c2 :: cs') = true := by
          simpa [literalOnly, h1] using ho
        have hl' : (c2 :: cs').length ≤ fuel := by
          simp only [List.length_cons] at hl ⊢
          omega
        simp [tokenizeF, collapse, h1, ih (c2 :: cs') hl' ho']

/-- The assembler maps a list of literal segments back to the string of
their characters, for any argument list and cursor. -/
theorem emit_lits (l : List Char) (args : List Value) (cur : Nat) :
    emit (l.map Segment.lit) args cur = String.mk l := by
  induction l generalizing cur with
  | nil => rfl
  | cons c l ih =>
    show String.mk [c] ++ emit (l.map Segment.lit) args cur = String.mk (c :: l)
    rw [ih]
    rfl

/-- C1: for every sink, template and argument list, `write` returns a
success outcome when the sink's single write succeeds, and when the sink
raises an error `e` it returns a failure outcome wrapping exactly `e`;
`write` itself never raises (its codomain is the Result container, with no
raise channel). -/
theorem write_outcome :
    ∀ (E : Type) (stream : WriterSync E) (t : String) (args : List Value),
      (stream.writeSync (encodeUtf8 (format t args)) = Except.ok () →
        write stream t args = RResult.ok ()) ∧
      ∀ e : E, stream.writeSync (encodeUtf8 (format t args)) = Except.error e →
        write stream t args = RResult.err e := by
  intro E stream t args
  constructor
  · intro h
    unfold write
    rw [h]
  · intro e h
    unfold write
    rw [h]

theorem write_outcome_witness :
    write (⟨fun _ => Except.ok ()⟩ : WriterSync Nat) "%d" [Value.num 5] = RResult.ok () ∧
      write (⟨fun _ => Except.error 3⟩ : WriterSync Nat) "%d" [Value.num 5] =
        RResult.err 3 :=
  ⟨(write_outcome Nat ⟨fun _ => Except.ok ()⟩ "%d" [Value.num 5]).1 rfl,
   (write_outcome Nat ⟨fun _ => Except.error 3⟩ "%d" [Value.num 5]).2 3 rfl⟩

/-- C2: `format` never raises for template-level errors (it is a total
function into strings); an unknown verb renders as the in-band token
`%!(BAD VERB 'c')`, a directive whose resolved argument index is past the
end of the argument list renders as `%!(MISSING 'v')`, and in particular
`format "%h" [""]` contains `%!(BAD VERB 'h')` and `format "%d" []`
contains `%!(MISSING 'd')`. -/
theorem format_errorTokens :
    (∀ (d : Directive) (args : List Value) (cur : Nat),
        knownVerbs.contains d.verb = false →
        (resolveDir d args cur).1 = badVerbTok d.verb) ∧
    (∀ (d : Directive) (args : List Value) (cur : Nat),
        knownVerbs.contains d.verb = true → d.verb ≠ '%' →
        args.get? (argIndexOf d args cur) = none →
        (resolveDir d args cur).1 = missingTok d.verb) ∧
    (∃ pre post, format "%h" [Value.str ""] = pre ++ badVerbTok 'h' ++ post) ∧
    (∃ pre post, format "%d" [] = pre ++ missingTok 'd' ++ post) := by
  refine ⟨?_, ?_, ⟨"", "", by decide⟩, ⟨"", "", by decide⟩⟩
  · intro d args cur hbad
    have hne : d.verb ≠ '%' := by
      intro he
      rw [he] at hbad
      simp [knownVerbs] at hbad
    have hmem : ¬d.verb ∈ knownVerbs := by simpa using hbad
    unfold resolveDir
    simp [hne, hmem]
  · intro d args cur hknown hne hmiss
    have hmem : d.verb ∈ knownVerbs := by simpa using hknown
    rw [List.get?_eq_getElem?] at hmiss
    unfold resolveDir
    simp [hne, hmem, hmiss]

theorem format_errorTokens_witness :
    (resolveDir { verb := 'h' } [Value.str ""] 0).1 = badVerbTok 'h' ∧
      (resolveDir { verb := 'd' } [] 0).1 = missingTok 'd' :=
  ⟨format_errorTokens.1 { verb := 'h' } [Value.str ""] 0 (by decide),
   format_errorTokens.2.1 { verb := 'd' } [] 0 (by decide) (by decide) (by decide)⟩

/-- C3: for every template containing no `%` directives other than `%%`
escapes, and every argument list, `format` returns the template with each
`%%` collapsed to a single `%` and every other character unchanged, in
order. -/
theorem format_literalOnly (t : String) (args : List Value)
    (h : literalOnly t.data = true) :
    format t args = String.mk (collapse t.data) := by
  unfold format tokenize
  rw [tokenizeF_literal (t.data.length + 1) t.data (Nat.le_succ _) h, emit_lits]

theorem format_literalOnly_witness :
    literalOnly "ab%%c".data = true ∧
      format "ab%%c" [Value.num 7] = String.mk (collapse "ab%%c".data) :=
  ⟨by decide, format_literalOnly "ab%%c" [Value.num 7] (by decide)⟩

/-- C4: an explicit positional index `[n]` (1-based) makes the directive
consume argument `n - 1` and resets sequential consumption so the next
directive continues from index `n`; the same argument may be consumed more
than once, as in the spec's two documented examples. -/
theorem format_positional :
    (∀ (i : Nat) (fl : Flags) (vb : Char) (args : List Value) (cur : Nat),
        argIndexOf { idx := some i, flags := fl, verb := vb } args cur = i - 1) ∧
    (∀ (i : Nat) (fl : Flags) (vb : Char) (args : List Value) (cur : Nat),
        vb ≠ '%' →
        (resolveDir { idx := some i, flags := fl, verb := vb } args cur).2 =
          (i - 1) + 1) ∧
    format "%[2]s %[1]s" [Value.str "World", Value.str "Hello"] = "Hello World" ∧
    format "dec[%d]=%d hex[%[1]d]=%x oct[%[1]d]=%#o %s"
        [Value.num 1, Value.num 255, Value.str "Third"] =
      "dec[1]=255 hex[1]=0xff oct[1]=0377 Third" := by
  refine ⟨fun i fl vb args cur => rfl, ?_, by decide, by decide⟩
  intro i fl vb args cur hv
  unfold resolveDir
  simp only [hv, if_false]
  split
  · rfl
  · split <;> rfl

theorem format_positional_witness :
    (resolveDir { idx := some 1, verb := 's' } [Value.str "a"] 5).2 = 1 :=
  format_positional.2.1 1 {} 's' [Value.str "a"] 5 (by decide)

/-- C5: star-supplied width and precision are equivalent to literal width
and precision: a `*`-form consumes its value from the argument list, so a
`%*.*v` directive applied to `w, p, rest...` renders exactly as `%w.pv`
applied to `rest...`; in particular
`format "%*.*f" [9, 8, 456.0] = format "%9.8f" [456.0]`. -/
theorem format_star_equiv :
    (∀ (fl : Flags) (vb : Char) (w p : Nat) (rest : List Value),
        (resolveDir { flags := fl, width := .fromArg, prec := .fromArg, verb := vb }
            (Value.num (Int.ofNat w) :: Value.num (Int.ofNat p) :: rest) 0).1 =
          (resolveDir { flags := fl, width := .lit w, prec := .lit p, verb := vb }
            rest 0).1) ∧
      format "%*.*f" [Value.num 9, Value.num 8, Value.num 456] =
        format "%9.8f" [Value.num 456] := by
  refine ⟨?_, by decide⟩
  intro fl vb w p rest
  by_cases hv : vb = '%'
  · simp [resolveDir, hv]
  · unfold resolveDir argIndexOf resolveWP startIdx
    simp only [hv, if_false]
    by_cases hb : vb ∈ knownVerbs <;>
      cases h : rest[0]? <;> simp [hb, h, coerceIntD]

/-- C6: `format` is deterministic: any call allocates a fresh cursor, so
its result coincides with `format`'s for the same template and arguments,
whatever state an earlier call left behind; two calls with the same inputs
yield the same string. -/
theorem format_deterministic :
    ∀ (t : String) (args : List Value) (st st' : Cursor),
      callFormat st t args = format t args ∧
      callFormat st t args = callFormat st' t args ∧
      format t args = format t args := by
  intro t args st st'
  exact ⟨rfl, rfl, rfl⟩

/-- C7: unwrapping an absent Option or an Err Result without a fallback
panics (the raise channel of the embedding) carrying a diagnostic message,
rather than returning; the fallback forms `unwrapOr`/`unwrapOrElse` return
the fallback instead of raising. -/
theorem unwrap_aborts :
    ∀ (T E : Type) (msg : String) (fb : T) (cb : Unit → T) (cbe : E → T)
      (e : E) (ev : Value),
      (ROption.none : ROption T).expect msg =
        .error (Rustic.panic (.str msg) []) ∧
      (ROption.none : ROption T).unwrap =
        .error (Rustic.panic (.str "Option does not contain a value!") []) ∧
      (ROption.none : ROption T).unwrapOr fb = fb ∧
      (ROption.none : ROption T).unwrapOrElse cb = cb () ∧
      (RResult.err e : RResult T E).expect msg =
        .error (Rustic.panic (.str msg) []) ∧
      (RResult.err ev : RResult T Value).unwrap = .error (Rustic.panic ev []) ∧
      (RResult.err e : RResult T E).unwrapOr fb = fb ∧
      (RResult.err e : RResult T E).unwrapOrElse cbe = cbe e := by
  intro T E msg fb cb cbe e ev
  exact ⟨rfl, rfl, rfl, rfl, rfl, rfl, rfl, rfl⟩

/-- C8: `panic` never returns (its codomain is the type of raised values):
with a string first argument it raises the string obtained by formatting it
with the remaining arguments, and with a non-string first argument it
raises that value unchanged. -/
theorem panic_behavior :
    ∀ (s : String) (args : List Value) (n : Int),
      Rustic.panic (.str s) args = .val (.str (format s args)) ∧
      Rustic.panic (.num n) args = .val (.num n) ∧
      ∀ v, ∃ r, Rustic.panic v args = Raised.val r := by
  intro s args n
  refine ⟨rfl, rfl, ?_⟩
  intro v
  cases v
  · exact ⟨_, rfl⟩
  · exact ⟨_, rfl⟩

/-- C9: `Option.map` auto-flattens: on `Some v`, when the callback's result
is itself an Option it is returned directly (never nested), otherwise the
result is wrapped in `Some`; on `None` the callback is not invoked (zero
calls) and `None` is returned. -/
theorem map_autoflatten :
    ∀ (T U : Type) (v : T) (cb : T → ROption U ⊕ U),
      (∀ o2, cb v = .inl o2 → (ROption.some v).map cb = o2) ∧
      (∀ u, cb v = .inr u → (ROption.some v).map cb = .some u) ∧
      (ROption.none : ROption T).map cb = .none ∧
      (ROption.none : ROption T).mapCalls cb = (.none, 0) ∧
      (∀ o : ROption T, (o.mapCalls cb).1 = o.map cb) := by
  intro T U v cb
  refine ⟨?_, ?_, rfl, rfl, ?_⟩
  · intro o2 h
    show (match cb v with
      | Sum.inl o2 => o2
      | Sum.inr u => ROption.some u) = o2
    rw [h]
  · intro u h
    show (match cb v with
      | Sum.inl o2 => o2
      | Sum.inr u => ROption.some u) = ROption.some u
    rw [h]
  · intro o
    cases o with
    | none => rfl
    | some w => cases h : cb w <;> simp [ROption.map, ROption.mapCalls, h]

theorem map_autoflatten_witness :
    (ROption.some (1 : Nat)).map (fun n => Sum.inl (ROption.some (n + 1))) =
        ROption.some 2 ∧
      (ROption.some (1 : Nat)).map (fun n => (Sum.inr (n + 1) : ROption Nat ⊕ Nat)) =
        ROption.some 2 :=
  ⟨(map_autoflatten Nat Nat 1 _).1 (ROption.some 2) rfl,
   (map_autoflatten Nat Nat 1 _).2.1 2 rfl⟩

/-- C10 (evaluation of the code as written): `Result.andThen` guards the
callback with `!this.isErr`, a test of the truthy method reference, so it
returns the receiver unchanged for every input and never applies the
callback; on `Ok 1` with a callback producing `Ok 2` it returns `Ok 1`,
contradicting the claimed `cb(v)` behavior. -/
theorem andThen_returns_self :
    RResult.andThen (RResult.ok 1) (fun v : Nat => RResult.ok (v + 1)) =
        (RResult.ok 1 : RResult Nat Nat) ∧
      ∀ (T E : Type) (r : RResult T E) (cb : T → RResult T E), r.andThen cb = r := by
  exact ⟨rfl, fun T E r cb => rfl⟩
